import Mathlib

/-!
Verification development for the Project-911 importer pipeline.

The Go sources are shallowly embedded as executable Lean definitions:

* Go `float64` amounts are modelled as exact rationals (`ℚ`).  The code parses
  decimal strings, adds them, and re-prints them with 8 fractional digits; the
  rational model performs those operations exactly.
* Go `time.Time` values are modelled as `ℤ` — milliseconds since the Unix
  epoch.  The zero value `time.Time{}` (0001-01-01T00:00:00 UTC) corresponds to
  `goZeroTimeMillis`.  `t.After(u)` is `u < t`, `t.Before(u)` is `t < u`.
* The CSV ledger file is a `List (List String)` of records; a missing file is
  `none`.  Timestamps are written with Go's `time.RFC3339` layout (whole-second
  precision, UTC zone assumed) and amounts with `%.8f`.
* The paginated fetcher consumes an explicit finite script of HTTP responses
  (`List HttpResult`); each loop iteration consumes one response.  A script
  that runs out while the loop still wants a page models indefinite blocking.
* `strconv.ParseFloat` / `strconv.ParseInt` are modelled as exact decimal
  parsers returning `none` on a syntactically invalid string (the importer
  discards the error value, defaulting to `0`).  Int64 range clamping and the
  `Inf`/`NaN`/hex forms are outside the inputs considered here.
* Go map iteration order is unspecified; the model materialises order groups
  in first-seen key order (the spec leaves this stage's output order open).
* Error message texts are abbreviated; only which operations fail matters.
-/

namespace P911

/-! ### Decimal string parsing (model of `strconv.ParseFloat` / `ParseInt`) -/

/-- Accumulated numeric value of a run of decimal digit characters. -/
def digitsToNat (cs : List Char) : Nat :=
  cs.foldl (fun a c => a * 10 + (c.toNat - 48)) 0

/-- Mantissa value `intpart.fracpart` as an exact rational. -/
def mantissaVal (ip fp : List Char) : ℚ :=
  (digitsToNat ip : ℚ) + (digitsToNat fp : ℚ) / ((10 : ℚ) ^ fp.length)

/-- Exponent suffix: optional sign followed by at least one digit. -/
def parseExpDigits (cs : List Char) (m : ℚ) : Option ℚ :=
  let p : ℤ × List Char :=
    match cs with
    | '+' :: t => (1, t)
    | '-' :: t => (-1, t)
    | t => (1, t)
  if p.2.isEmpty || !(p.2.all Char.isDigit) then none
  else some (m * (10 : ℚ) ^ (p.1 * (digitsToNat p.2 : ℤ)))

/-- Optional `e`/`E` exponent part after the mantissa. -/
def parseExpPart (cs : List Char) (m : ℚ) : Option ℚ :=
  match cs with
  | [] => some m
  | 'e' :: rest => parseExpDigits rest m
  | 'E' :: rest => parseExpDigits rest m
  | _ => none

/-- Unsigned decimal float: digits, optional `.digits`, optional exponent. -/
def parseFloatCore (cs : List Char) : Option ℚ :=
  let ip := cs.takeWhile Char.isDigit
  let rest1 := cs.dropWhile Char.isDigit
  match rest1 with
  | '.' :: rest2 =>
    let fp := rest2.takeWhile Char.isDigit
    let rest3 := rest2.dropWhile Char.isDigit
    if ip.isEmpty && fp.isEmpty then none
    else parseExpPart rest3 (mantissaVal ip fp)
  | _ =>
    if ip.isEmpty then none
    else parseExpPart rest1 (mantissaVal ip [])

/-- Model of `strconv.ParseFloat s 64`: `none` when the syntax is invalid. -/
def parseFloat? (s : String) : Option ℚ :=
  match s.toList with
  | '+' :: t => parseFloatCore t
  | '-' :: t => (parseFloatCore t).map Neg.neg
  | t => parseFloatCore t

/-- Model of `strconv.ParseInt s 10 64`: `none` when the syntax is invalid. -/
def parseInt? (s : String) : Option ℤ :=
  match s.toList with
  | '+' :: t => if t.isEmpty || !(t.all Char.isDigit) then none else some (digitsToNat t : ℤ)
  | '-' :: t => if t.isEmpty || !(t.all Char.isDigit) then none else some (-(digitsToNat t : ℤ))
  | t => if t.isEmpty || !(t.all Char.isDigit) then none else some (digitsToNat t : ℤ)

/-- Substring test on character lists (model of Go `strings.Contains`). -/
def containsSub (needle : List Char) : List Char → Bool
  | [] => needle.isPrefixOf ([] : List Char)
  | c :: t => needle.isPrefixOf (c :: t) || containsSub needle t

/-- Go `strings.Contains hay needle`. -/
def strContains (hay needle : String) : Bool :=
  containsSub needle.toList hay.toList

/-! ### Data model (`internal/model/types.go`, `internal/okx/client.go`) -/

/-- Go `model.TransactionType` is a string type. -/
abbrev TransactionType := String

/-- Constant `model.TypeDeposit`. -/
def TypeDeposit : TransactionType := "DEPOSIT"

/-- Constant `model.TypeWithdrawal`. -/
def TypeWithdrawal : TransactionType := "WITHDRAWAL"

/-- Constant `model.TypePnL`. -/
def TypePnL : TransactionType := "PNL"

/-- Type `model.Transaction`: one ledger row.  Timestamp in epoch milliseconds. -/
structure Transaction where
  timestamp : ℤ
  type : TransactionType
  amount : ℚ
  asset : String
  note : String
  deriving DecidableEq, Repr

/-- Type `okx.Bill`: one raw remote bill line (all fields are strings). -/
structure Bill where
  billId : String
  ts : String
  type : String
  subType : String
  pnl : String
  balChg : String
  ccy : String
  instId : String
  ordId : String
  notes : String
  deriving DecidableEq, Repr

/-- Type `okx.BillResponse`: the decoded JSON envelope of one page. -/
structure BillResponse where
  code : String
  msg : String
  data : List Bill
  deriving DecidableEq, Repr

/-- Note that `time.UnixMilli 0` is the Unix epoch; `time.Time{}` (the zero value used
for "no watermark") is 0001-01-01T00:00:00 UTC, i.e. this many milliseconds. -/
def goZeroTimeMillis : ℤ := -62135596800000

/-- Amount of one bill: `strconv.ParseFloat bill.BalChg` with the error
discarded (`amount, _ :=`), so an invalid string yields `0`. -/
def billAmount (b : Bill) : ℚ :=
  (parseFloat? b.balChg).getD 0

/-- Timestamp of one bill in epoch milliseconds: `strconv.ParseInt bill.Ts`
with the error discarded, then `time.UnixMilli`. -/
def billTs (b : Bill) : ℤ :=
  (parseInt? b.ts).getD 0

/-! ### Transaction aggregator (`cmd/importer/main.go`) -/

/-- Function `determineType`: type code `"1"` is a deposit, `"2"` a withdrawal,
everything else profit-and-loss. -/
def determineType (billType : String) : TransactionType :=
  if billType = "1" then TypeDeposit
  else if billType = "2" then TypeWithdrawal
  else TypePnL

/-- Function `getNoteFromType`: human-readable label for a standalone type code. -/
def getNoteFromType (billType : String) : String :=
  if billType = "1" then "Deposit"
  else if billType = "2" then "Withdrawal"
  else if billType = "8" then "Funding Fee"
  else "Auto Import"

/-- First event of an order group seeds the aggregate (kind forced to PnL). -/
def newGroup (b : Bill) : Transaction :=
  { timestamp := billTs b
    type := TypePnL
    amount := billAmount b
    asset := b.ccy
    note := "Trade (" ++ b.instId ++ ")" }

/-- Folding one more event into an existing order group: add the amount, keep
the strictly later timestamp, and append the instrument id to the note when it
is not already a substring of it. -/
def updateGroup (t : Transaction) (b : Bill) : Transaction :=
  let t1 : Transaction := { t with amount := t.amount + billAmount b }
  let t2 : Transaction :=
    if t1.timestamp < billTs b then { t1 with timestamp := billTs b } else t1
  if strContains t2.note b.instId then t2
  else { t2 with note := t2.note ++ " " ++ b.instId }

/-- A bill without an order id becomes one standalone transaction. -/
def standaloneTx (b : Bill) : Transaction :=
  { timestamp := billTs b
    type := determineType b.type
    amount := billAmount b
    asset := b.ccy
    note :=
      if b.instId = "" then getNoteFromType b.type
      else getNoteFromType b.type ++ " (" ++ b.instId ++ ")" }

/-- The Go `map[string]*model.Transaction` keyed by order id, modelled as an
association list in first-seen key order, plus the standalone list. -/
structure AggState where
  merged : List (String × Transaction)
  standalone : List Transaction
  deriving DecidableEq, Repr

/-- Keyed in-place update of the order-group map (new keys go to the end). -/
def insertOrUpdate : List (String × Transaction) → String → Bill → List (String × Transaction)
  | [], k, b => [(k, newGroup b)]
  | (k', t) :: rest, k, b =>
    if k' = k then (k', updateGroup t b) :: rest
    else (k', t) :: insertOrUpdate rest k b

/-- One iteration of the aggregation loop body. -/
def aggStep (st : AggState) (b : Bill) : AggState :=
  if b.ordId ≠ "" then { st with merged := insertOrUpdate st.merged b.ordId b }
  else { st with standalone := st.standalone ++ [standaloneTx b] }

/-- Function `aggregateAndMapBills`: fold all bills, then emit the merged order groups
followed by the standalone transactions. -/
def aggregateAndMapBills (bills : List Bill) : List Transaction :=
  let st := bills.foldl aggStep { merged := [], standalone := [] }
  st.merged.map Prod.snd ++ st.standalone

/-- The order-group part of the aggregator's output. -/
def mergedTransactions (bills : List Bill) : List Transaction :=
  (bills.foldl aggStep { merged := [], standalone := [] }).merged.map Prod.snd

/-! ### Paginated fetcher (`okx.Client.FetchBills`).

Each loop iteration performs one HTTP round-trip; the network is modelled as a
finite script of `HttpResult`s consumed in order. -/

/-- One HTTP round-trip result: a transport error (`c.Client.Do` fails), or a
status code together with the raw body and, for well-formed bodies, the decoded
envelope (`none` models JSON that fails to unmarshal). -/
inductive HttpResult where
  | transportError (msg : String)
  | response (status : Nat) (body : String) (parsed : Option BillResponse)
  deriving DecidableEq, Repr

/-- The fetch loop's mutable state: accumulated bills, cursor, page counter. -/
structure FetchState where
  allBills : List Bill
  afterCursor : String
  pageCount : Nat
  deriving DecidableEq, Repr

/-- Outcome of one loop iteration: abort with an error, return the accumulated
bills, retry the same page with the state untouched (`continue` after the
rate-limit sleep), or advance to the next page. -/
inductive FetchOutcome where
  | fail (msg : String)
  | done (bills : List Bill)
  | retrySame
  | nextPage (st : FetchState)
  deriving DecidableEq, Repr

/-- One iteration of the `FetchBills` loop body applied to one response. -/
def fetchStep (st : FetchState) (r : HttpResult) : FetchOutcome :=
  match r with
  | .transportError e => .fail e
  | .response status body parsed =>
    if status ≠ 200 then
      if strContains body "50011" || status == 429 then .retrySame
      else .fail ("API HTTP Error: " ++ body)
    else
      match parsed with
      | none => .fail "invalid character in JSON"
      | some res =>
        if res.code ≠ "0" then
          if res.code = "50011" then .retrySame
          else .fail ("OKX Biz Error: " ++ res.msg)
        else
          match res.data with
          | [] => .done st.allBills
          | x :: xs =>
            if (x :: xs).length < 100 then .done (st.allBills ++ x :: xs)
            else
              .nextPage
                { allBills := st.allBills ++ x :: xs
                  afterCursor := ((x :: xs).getLast (List.cons_ne_nil x xs)).billId
                  pageCount := st.pageCount + 1 }

/-- Result of running the whole fetch loop against a finite response script.
`outOfScript` models the loop still wanting another page when the script ends
(e.g. blocking forever on an endless run of rate-limit responses). -/
inductive FetchResult where
  | ok (bills : List Bill)
  | fail (msg : String)
  | outOfScript
  deriving DecidableEq, Repr

/-- Run the fetch loop from a given state over a response script. -/
def fetchRun (st : FetchState) : List HttpResult → FetchResult
  | [] => .outOfScript
  | r :: rs =>
    match fetchStep st r with
    | .fail e => .fail e
    | .done bills => .ok bills
    | .retrySame => fetchRun st rs
    | .nextPage st2 => fetchRun st2 rs

/-- Function `FetchBills`: empty cursor, no bills, page counter 1. -/
def fetchBills (script : List HttpResult) : FetchResult :=
  fetchRun { allBills := [], afterCursor := "", pageCount := 1 } script

/-- A response that triggers the retry-with-cooldown path: HTTP 429, any
non-200 whose body contains `"50011"`, or a decoded business code `"50011"`. -/
def isRateLimit : HttpResult → Prop
  | .transportError _ => False
  | .response status body parsed =>
    status = 429 ∨ (status ≠ 200 ∧ strContains body "50011" = true) ∨
      (status = 200 ∧ ∃ res, parsed = some res ∧ res.code = "50011")

/-! ### Calendar conversion for `time.RFC3339` round trips.

`appendNewRecords` writes `tx.Timestamp.Format(time.RFC3339)` (whole seconds)
and `service.LoadTransactions` reads it back with `time.Parse(time.RFC3339)`.
Dates use the standard proleptic-Gregorian civil-from-days conversion. -/

/-- Days since 1970-01-01 to calendar date `(year, month, day)`. -/
def civilFromDays (z : ℤ) : ℤ × Nat × Nat :=
  let zs := z + 719468
  let era := zs.fdiv 146097
  let doe := (zs.fmod 146097).toNat
  let yoe := (doe - doe / 1460 + doe / 36524 - doe / 146096) / 365
  let y := era * 400 + yoe
  let doy := doe - (365 * yoe + yoe / 4 - yoe / 100)
  let mp := (5 * doy + 2) / 153
  let d := doy - (153 * mp + 2) / 5 + 1
  let m := if mp < 10 then mp + 3 else mp - 9
  (if m ≤ 2 then y + 1 else y, m, d)

/-- Calendar date to days since 1970-01-01. -/
def daysFromCivil (y : ℤ) (m d : Nat) : ℤ :=
  let y2 := if m ≤ 2 then y - 1 else y
  let era := y2.fdiv 400
  let yoe := (y2.fmod 400).toNat
  let mp := if 2 < m then m - 3 else m + 9
  let doy := (153 * mp + 2) / 5 + d - 1
  let doe := yoe * 365 + yoe / 4 - yoe / 100 + doy
  era * 146097 + (doe : ℤ) - 719468

/-- Decimal digit characters of `n` (most significant first); fuel-driven. -/
def natDigits (fuel n : Nat) (acc : List Char) : List Char :=
  match fuel with
  | 0 => acc
  | f + 1 =>
    if n < 10 then Char.ofNat (48 + n) :: acc
    else natDigits f (n / 10) (Char.ofNat (48 + n % 10) :: acc)

/-- Number `n` printed in decimal, left-padded with zeros to width `w`. -/
def padNum (w n : Nat) : String :=
  let ds := natDigits 30 n []
  String.mk (List.replicate (w - ds.length) '0' ++ ds)

/-- Model of `time.Time.Format(time.RFC3339)` for an epoch-millisecond instant, in the
UTC zone: `YYYY-MM-DDTHH:MM:SSZ`.  Sub-second precision is dropped. -/
def formatRFC3339 (ms : ℤ) : String :=
  let s := ms.fdiv 1000
  let days := s.fdiv 86400
  let sod := (s.fmod 86400).toNat
  let c := civilFromDays days
  let yearStr := if c.1 < 0 then "-" ++ padNum 4 c.1.natAbs else padNum 4 c.1.toNat
  yearStr ++ "-" ++ padNum 2 c.2.1 ++ "-" ++ padNum 2 c.2.2 ++ "T" ++
    padNum 2 (sod / 3600) ++ ":" ++ padNum 2 (sod % 3600 / 60) ++ ":" ++
    padNum 2 (sod % 60) ++ "Z"

/-- Zone suffix: `Z` or `±HH:MM`; returns the offset in seconds. -/
def parseZone : List Char → Option ℤ
  | ['Z'] => some 0
  | [sgn, h1, h2, ':', m1, m2] =>
    if (sgn = '+' || sgn = '-') && [h1, h2, m1, m2].all Char.isDigit then
      let off : ℤ := digitsToNat [h1, h2] * 3600 + digitsToNat [m1, m2] * 60
      some (if sgn = '-' then -off else off)
    else none
  | _ => none

/-- Optional fractional-second part before the zone; returns (millis, rest). -/
def parseFracPart (cs : List Char) : Option (ℤ × List Char) :=
  match cs with
  | '.' :: t =>
    let ds := t.takeWhile Char.isDigit
    if ds.isEmpty then none
    else some ((digitsToNat ((ds.take 3) ++ List.replicate (3 - ds.length) '0') : ℤ),
      t.dropWhile Char.isDigit)
  | _ => some (0, cs)

/-- Model of `time.Parse(time.RFC3339, s)` returning epoch milliseconds. -/
def parseRFC3339? (str : String) : Option ℤ :=
  match str.toList with
  | y1 :: y2 :: y3 :: y4 :: '-' :: m1 :: m2 :: '-' :: d1 :: d2 :: 'T' ::
      h1 :: h2 :: ':' :: n1 :: n2 :: ':' :: s1 :: s2 :: rest =>
    if ([y1, y2, y3, y4, m1, m2, d1, d2, h1, h2, n1, n2, s1, s2].all Char.isDigit) then
      let y : ℤ := (digitsToNat [y1, y2, y3, y4] : ℤ)
      let mo := digitsToNat [m1, m2]
      let dy := digitsToNat [d1, d2]
      let hh := digitsToNat [h1, h2]
      let mi := digitsToNat [n1, n2]
      let ss := digitsToNat [s1, s2]
      if 1 ≤ mo && mo ≤ 12 && 1 ≤ dy && dy ≤ 31 && hh ≤ 23 && mi ≤ 59 && ss ≤ 59 then
        match parseFracPart rest with
        | none => none
        | some fr =>
          match parseZone fr.2 with
          | none => none
          | some off =>
            some ((daysFromCivil y mo dy * 86400 + hh * 3600 + mi * 60 + ss - off) * 1000
              + fr.1)
      else none
    else none
  | _ => none

/-! ### Ledger store and reconciler (`cmd/importer/main.go`, `service`). -/

/-- Model of `fmt.Sprintf "%.8f"`: round to 8 fractional digits, ties to even. -/
def roundHalfEven (q : ℚ) : ℤ :=
  let n := ⌊q⌋
  let f := q - n
  if f < 1 / 2 then n
  else if 1 / 2 < f then n + 1
  else if n % 2 = 0 then n else n + 1

/-- The amount column text: `fmt.Sprintf("%.8f", tx.Amount)`. -/
def format8 (q : ℚ) : String :=
  let scaled := roundHalfEven (q * 100000000)
  let sign := if scaled < 0 then "-" else ""
  let a := scaled.natAbs
  sign ++ (padNum 1 (a / 100000000)) ++ "." ++ padNum 8 (a % 100000000)

/-- The header row written when the ledger file is created. -/
def headerRow : List String :=
  ["timestamp", "type", "amount", "asset", "note"]

/-- The CSV record written for one transaction. -/
def txRecord (tx : Transaction) : List String :=
  [formatRFC3339 tx.timestamp, tx.type, format8 tx.amount, tx.asset, tx.note]

/-- Model of `service.LoadTransactions`, skipping the header row (index 0) and rows
with fewer than 5 fields; a bad timestamp or amount aborts with an error. -/
def loadRows (rows : List (List String)) (i : Nat) : Except String (List Transaction) :=
  match rows with
  | [] => .ok []
  | row :: rest =>
    if i = 0 then loadRows rest (i + 1)
    else if row.length < 5 then loadRows rest (i + 1)
    else
      match parseRFC3339? (row.getD 0 "") with
      | none => .error "ledger timestamp parse error"
      | some ts =>
        match parseFloat? (row.getD 2 "") with
        | none => .error "ledger amount parse error"
        | some amt =>
          (loadRows rest (i + 1)).map
            (fun txs =>
              { timestamp := ts
                type := row.getD 1 ""
                amount := amt
                asset := row.getD 3 ""
                note := row.getD 4 "" } :: txs)

/-- Model of `service.LoadTransactions` over the whole file contents. -/
def loadTransactions (rows : List (List String)) : Except String (List Transaction) :=
  loadRows rows 0

/-- Function `getLastRecordTimestamp`: zero time when the file is missing, when loading
fails (the error is discarded), or when there are no data rows; otherwise the
last loaded row's timestamp. -/
def getLastRecordTimestamp (file : Option (List (List String))) : ℤ :=
  match file with
  | none => goZeroTimeMillis
  | some rows =>
    match loadTransactions rows with
    | .error _ => goZeroTimeMillis
    | .ok [] => goZeroTimeMillis
    | .ok (t :: ts) => ((t :: ts).getLast (List.cons_ne_nil t ts)).timestamp

/-- Ordering used by `sort.Slice(newTxs, ...Before...)`: by timestamp. -/
def txLe (a b : Transaction) : Prop :=
  a.timestamp ≤ b.timestamp

instance : DecidableRel txLe :=
  fun a b => inferInstanceAs (Decidable (a.timestamp ≤ b.timestamp))

instance : IsTotal Transaction txLe :=
  ⟨fun a b => Int.le_total a.timestamp b.timestamp⟩

instance : IsTrans Transaction txLe :=
  ⟨fun _ _ _ h1 h2 => le_trans h1 h2⟩

/-- The chronological sort performed inside `appendNewRecords`. -/
def sortTxs (l : List Transaction) : List Transaction :=
  List.insertionSort txLe l

/-- Function `appendNewRecords`: create the file with a header when missing, then
append the batch sorted ascending by timestamp. -/
def appendNewRecords (file : Option (List (List String))) (newTxs : List Transaction) :
    List (List String) :=
  match file with
  | none => headerRow :: (sortTxs newTxs).map txRecord
  | some rows => rows ++ (sortTxs newTxs).map txRecord

/-- Step 5 of `main`: drop zero amounts, then drop anything not strictly
later than the watermark. -/
def filterNew (lastTs : ℤ) (txs : List Transaction) : List Transaction :=
  txs.filter (fun t => decide (t.amount ≠ 0 ∧ lastTs < t.timestamp))

/-- How a run ended: normally, by `log.Fatalf`, or blocked inside the fetch
loop (the oracle script ran out while the loop wanted another page). -/
inductive RunOutcome where
  | completed
  | fatal (msg : String)
  | blocked
  deriving DecidableEq, Repr

/-- Observable result of one importer run: the resulting ledger file, how the
run ended, and how many times the ledger was written. -/
structure RunResult where
  file : Option (List (List String))
  outcome : RunOutcome
  writes : Nat
  deriving DecidableEq, Repr

/-- One full importer run (`cmd/importer.main`): read config, read the local
watermark, fetch all bills, aggregate, filter, and append at most once. -/
def runOnce (configOk : Bool) (file : Option (List (List String)))
    (script : List HttpResult) : RunResult :=
  if !configOk then { file := file, outcome := .fatal "cannot read config", writes := 0 }
  else
    let lastTs := getLastRecordTimestamp file
    match fetchBills script with
    | .fail e => { file := file, outcome := .fatal e, writes := 0 }
    | .outOfScript => { file := file, outcome := .blocked, writes := 0 }
    | .ok rawBills =>
      let transactions := aggregateAndMapBills rawBills
      let newTxs := filterNew lastTs transactions
      if newTxs.isEmpty then { file := file, outcome := .completed, writes := 0 }
      else
        { file := some (appendNewRecords file newTxs)
          outcome := .completed
          writes := 1 }

/-- The timestamp value a row carries after the RFC3339 write/read round trip:
whole-second (floor) truncation of the millisecond instant. -/
def truncSec (ms : ℤ) : ℤ :=
  1000 * ms.fdiv 1000

/-- Parsed timestamps of the data rows of a ledger file (0 for bad cells). -/
def ledgerTimestamps (rows : List (List String)) : List ℤ :=
  (rows.drop 1).map (fun r => (parseRFC3339? (r.getD 0 "")).getD 0)

/-! ### Concrete inputs used by the individual claims. -/

/-- A deposit bill whose timestamp (500 ms) is not second-aligned. -/
def c1Bill : Bill :=
  { billId := "b1", ts := "500", type := "1", subType := "", pnl := "", balChg := "1.5",
    ccy := "USDT", instId := "", ordId := "", notes := "" }

/-- Remote script: one successful page holding only `c1Bill`. -/
def c1Script : List HttpResult :=
  [.response 200 "" (some { code := "0", msg := "", data := [c1Bill] })]

/-- A zero-amount candidate transaction strictly newer than the watermark. -/
def c3Tx : Transaction :=
  { timestamp := 5, type := TypePnL, amount := 0, asset := "USDT", note := "x" }

/-- A ledger file whose single data row has an unparseable timestamp. -/
def c4Rows : List (List String) :=
  [["timestamp", "type", "amount", "asset", "note"],
   ["notadate", "PNL", "1.0", "USDT", "x"]]

/-- Remote script paired with `c4Rows`: one page with one deposit. -/
def c4Script : List HttpResult :=
  [.response 200 ""
    (some { code := "0", msg := ""
            data := [{ billId := "d1", ts := "500", type := "1", subType := "", pnl := "",
                       balChg := "1.5", ccy := "USDT", instId := "", ordId := "", notes := "" }] })]

/-- Two standalone funding-fee bills sharing the same millisecond timestamp. -/
def c5Script : List HttpResult :=
  [.response 200 ""
    (some { code := "0", msg := ""
            data := [{ billId := "x1", ts := "1000", type := "8", subType := "", pnl := "",
                       balChg := "1.0", ccy := "USDT", instId := "", ordId := "", notes := "" },
                     { billId := "x2", ts := "1000", type := "8", subType := "", pnl := "",
                       balChg := "2.0", ccy := "USDT", instId := "", ordId := "", notes := "" }] })]

/-- Does an `Except` hold an error? -/
def isErr {ε α : Type} : Except ε α → Bool
  | .error _ => true
  | .ok _ => false

/-- A nonzero candidate transaction newer than the watermark 0. -/
def c3wTx : Transaction :=
  { timestamp := 5, type := TypePnL, amount := 1, asset := "USDT", note := "x" }

/-- A bill whose balance-change and timestamp strings are unparseable. -/
def c10Bill : Bill :=
  { billId := "u1", ts := "xyz", type := "8", subType := "", pnl := "", balChg := "abc",
    ccy := "USDT", instId := "", ordId := "", notes := "" }

/-- First leg of order "A" (fee, negative amount). -/
def c2BillA : Bill :=
  { billId := "a1", ts := "100", type := "2", subType := "", pnl := "", balChg := "-1.0",
    ccy := "USDT", instId := "BTC-USDT", ordId := "A", notes := "" }

/-- Second leg of order "A" (realised profit). -/
def c2BillB : Bill :=
  { billId := "a2", ts := "105", type := "8", subType := "", pnl := "", balChg := "5.0",
    ccy := "USDT", instId := "BTC-USDT", ordId := "A", notes := "" }

/-- A nonzero candidate transaction used to instantiate the batch-order facts. -/
def c5wTx : Transaction :=
  { timestamp := 1500, type := TypePnL, amount := 2, asset := "USDT", note := "y" }

/-! ### Theorems. -/

/-- C1: the pipeline is NOT idempotent.  The ledger stores timestamps at
RFC3339 whole-second precision, so after a first run appends a transaction at
500 ms the reread watermark is 0, the same candidate passes the `> watermark`
filter again, and the second run appends a duplicate row. -/
theorem rerun_appends_duplicate_c1 :
    (runOnce true none c1Script).writes = 1 ∧
    (runOnce true (runOnce true none c1Script).file c1Script).writes = 1 ∧
    (runOnce true (runOnce true none c1Script).file c1Script).file
      ≠ (runOnce true none c1Script).file := by
  with_unfolding_all decide

/-- C3 counterexample: a candidate with timestamp strictly greater than the
watermark but amount `0` is excluded from the append set, so "every candidate
with timestamp > T is included" is false as stated. -/
theorem zero_amount_excluded_c3_cex :
    c3Tx ∈ [c3Tx] ∧ (0 : ℤ) < c3Tx.timestamp ∧ c3Tx ∉ filterNew 0 [c3Tx] := by
  with_unfolding_all decide

/-- C4 counterexample: a ledger whose data row fails timestamp parsing does
NOT abort the run: the load error is discarded, the watermark falls back to
the zero time, and the run proceeds to fetch and append. -/
theorem ledger_parse_swallowed_c4_cex :
    isErr (loadTransactions c4Rows) = true ∧
    getLastRecordTimestamp (some c4Rows) = goZeroTimeMillis ∧
    (runOnce true (some c4Rows) c4Script).outcome = .completed ∧
    (runOnce true (some c4Rows) c4Script).writes = 1 := by
  with_unfolding_all decide

/-- C5 counterexample: one run appending two transactions that share a
timestamp produces a ledger whose row timestamps are `[1000, 1000]`, so the
full sequence of rows is not strictly increasing. -/
theorem ledger_ties_c5_cex :
    ledgerTimestamps ((runOnce true none c5Script).file.getD []) = [1000, 1000] ∧
    ¬ List.Pairwise (· < ·) (ledgerTimestamps ((runOnce true none c5Script).file.getD [])) := by
  with_unfolding_all decide

/-- C3 (amended): a candidate whose timestamp is at most the watermark `T` is
always excluded from the append set, and a candidate whose timestamp is
strictly greater than `T` is included provided its amount is not zero. -/
theorem watermark_filter_c3 (T : ℤ) (txs : List Transaction) (tx : Transaction)
    (hmem : tx ∈ txs) :
    (tx.timestamp ≤ T → tx ∉ filterNew T txs) ∧
    (T < tx.timestamp → tx.amount ≠ 0 → tx ∈ filterNew T txs) := by
  constructor
  · intro hle hin
    have hp := of_decide_eq_true (List.mem_filter.mp hin).2
    exact absurd hp.2 (not_lt.mpr hle)
  · intro hgt hamt
    exact List.mem_filter.mpr ⟨hmem, decide_eq_true ⟨hamt, hgt⟩⟩

/-- Witness for C3's theorem at a concrete input. -/
theorem watermark_filter_c3_witness :
    c3wTx ∈ filterNew 0 [c3wTx] ∧ c3wTx ∉ filterNew 10 [c3wTx] :=
  ⟨(watermark_filter_c3 0 [c3wTx] c3wTx (by decide)).2 (by decide)
      (by with_unfolding_all decide),
   (watermark_filter_c3 10 [c3wTx] c3wTx (by decide)).1 (by decide)⟩

/-- C4 (amended): when an existing ledger row fails timestamp or amount
parsing, the load error is discarded: the watermark falls back to the zero
time (exactly as for a missing ledger) and the run still proceeds through
fetch, aggregation and append rather than aborting. -/
theorem ledger_parse_fallback_c4 (rows : List (List String)) (e : String)
    (h : loadTransactions rows = .error e) :
    getLastRecordTimestamp (some rows) = goZeroTimeMillis ∧
    (∀ script bills, fetchBills script = .ok bills →
      (runOnce true (some rows) script).outcome = .completed) := by
  constructor
  · simp [getLastRecordTimestamp, h]
  · intro script bills hf
    by_cases hE : (filterNew (getLastRecordTimestamp (some rows))
      (aggregateAndMapBills bills)).isEmpty
    · simp [runOnce, hf, hE]
    · simp [runOnce, hf, hE]

/-- Witness for C4's theorem at a concrete input. -/
theorem ledger_parse_fallback_c4_witness :
    getLastRecordTimestamp (some c4Rows) = goZeroTimeMillis ∧
    (runOnce true (some c4Rows) c4Script).outcome = .completed := by
  have h := ledger_parse_fallback_c4 c4Rows "ledger timestamp parse error"
    (by with_unfolding_all rfl)
  exact ⟨h.1, h.2 c4Script _ (by with_unfolding_all rfl)⟩

/-- C10: a bill whose balance-change string fails float parsing silently gets
amount `0` (and a timestamp string failing integer parsing silently becomes
the Unix epoch), and such a standalone zero-amount transaction can never be a
member of the append set, whatever the watermark. -/
theorem silent_parse_default_c10 (b : Bill) (T : ℤ) (txs : List Transaction) :
    (parseFloat? b.balChg = none → billAmount b = 0 ∧ (standaloneTx b).amount = 0) ∧
    (parseInt? b.ts = none → billTs b = 0 ∧ (standaloneTx b).timestamp = 0) ∧
    (parseFloat? b.balChg = none → standaloneTx b ∉ filterNew T txs) := by
  refine ⟨fun h => ?_, fun h => ?_, fun h => ?_⟩
  · simp [billAmount, standaloneTx, h]
  · simp [billTs, standaloneTx, h]
  · intro hin
    have hp := of_decide_eq_true (List.mem_filter.mp hin).2
    exact hp.1 (by simp [standaloneTx, billAmount, h])

/-- Witness for C10's theorem at a concrete input. -/
theorem silent_parse_default_c10_witness :
    billAmount c10Bill = 0 ∧ billTs c10Bill = 0 ∧
    standaloneTx c10Bill ∉ filterNew 0 [standaloneTx c10Bill] := by
  have h := silent_parse_default_c10 c10Bill 0 [standaloneTx c10Bill]
  exact ⟨(h.1 (by decide)).1, (h.2.1 (by decide)).1, h.2.2 (by decide)⟩

/-- C9: a run that ends in a fatal error leaves the ledger file untouched and
performs no write; every run writes at most once; and the single write, when
it happens, happens on a completed run and appends exactly the fully computed
filtered batch in one step. -/
theorem single_write_c9 (configOk : Bool) (file : Option (List (List String)))
    (script : List HttpResult) :
    (∀ msg, (runOnce configOk file script).outcome = .fatal msg →
        (runOnce configOk file script).file = file ∧
        (runOnce configOk file script).writes = 0) ∧
    (runOnce configOk file script).writes ≤ 1 ∧
    ((runOnce configOk file script).writes = 1 →
        (runOnce configOk file script).outcome = .completed ∧
        ∃ bills, fetchBills script = .ok bills ∧
          (runOnce configOk file script).file =
            some (appendNewRecords file
              (filterNew (getLastRecordTimestamp file) (aggregateAndMapBills bills)))) := by
  cases configOk with
  | false => simp [runOnce]
  | true =>
    simp only [runOnce, Bool.not_true]
    cases h : fetchBills script with
    | fail e => simp
    | outOfScript => simp
    | ok bills =>
      by_cases hE : (filterNew (getLastRecordTimestamp file) (aggregateAndMapBills bills)).isEmpty
      · simp [hE]
      · simp [hE]

/-- Witness for C9's theorem at a concrete input. -/
theorem single_write_c9_witness :
    (runOnce true none [HttpResult.transportError "boom"]).file = none ∧
    (runOnce true none [HttpResult.transportError "boom"]).writes = 0 :=
  (single_write_c9 true none [HttpResult.transportError "boom"]).1 "boom" (by decide)

/-- Reduction of one loop iteration on a 200 response with a decoded body. -/
theorem fetchStep_ok200 (st : FetchState) (body code msg2 : String) (data : List Bill) :
    fetchStep st (.response 200 body (some { code := code, msg := msg2, data := data })) =
      if code ≠ "0" then
        if code = "50011" then .retrySame else .fail ("OKX Biz Error: " ++ msg2)
      else
        match data with
        | [] => .done st.allBills
        | x :: xs =>
          if (x :: xs).length < 100 then .done (st.allBills ++ x :: xs)
          else .nextPage { allBills := st.allBills ++ x :: xs
                           afterCursor := ((x :: xs).getLast (List.cons_ne_nil x xs)).billId
                           pageCount := st.pageCount + 1 } :=
  rfl

/-- Reduction of one loop iteration on a non-"0" business code. -/
theorem fetchStep_biz (st : FetchState) (body code msg2 : String) (data : List Bill)
    (h0 : code ≠ "0") :
    fetchStep st (.response 200 body (some { code := code, msg := msg2, data := data })) =
      if code = "50011" then .retrySame else .fail ("OKX Biz Error: " ++ msg2) := by
  rw [fetchStep_ok200, if_pos h0]

/-- Reduction of one loop iteration on a successful empty page. -/
theorem fetchStep_page_nil (st : FetchState) (body msg2 : String) :
    fetchStep st (.response 200 body (some { code := "0", msg := msg2, data := [] })) =
      .done st.allBills :=
  rfl

/-- Reduction of one loop iteration on a successful non-empty page. -/
theorem fetchStep_page_cons (st : FetchState) (body msg2 : String) (x : Bill) (xs : List Bill) :
    fetchStep st (.response 200 body (some { code := "0", msg := msg2, data := x :: xs })) =
      (if (x :: xs).length < 100 then .done (st.allBills ++ x :: xs)
       else .nextPage { allBills := st.allBills ++ x :: xs
                        afterCursor := ((x :: xs).getLast (List.cons_ne_nil x xs)).billId
                        pageCount := st.pageCount + 1 }) :=
  rfl

/-- Reduction of one loop iteration on a non-200 HTTP status. -/
theorem fetchStep_non200 (st : FetchState) (status : Nat) (body : String)
    (parsed : Option BillResponse) (h : status ≠ 200) :
    fetchStep st (.response status body parsed) =
      (if strContains body "50011" || status == 429 then FetchOutcome.retrySame
       else .fail ("API HTTP Error: " ++ body)) := by
  simp only [fetchStep]
  rw [if_pos h]

/-- A decoded 200 response whose business code is not "50011" is never a
rate-limit signal. -/
theorem not_rateLimit_ok200 (body code msg2 : String) (data : List Bill)
    (hc : code ≠ "50011") :
    ¬ isRateLimit (.response 200 body (some { code := code, msg := msg2, data := data })) := by
  intro hr
  simp only [isRateLimit] at hr
  rcases hr with h429 | h50 | hbiz
  · exact absurd h429 (by decide)
  · exact h50.1 rfl
  · obtain ⟨res2, heq, hcode⟩ := hbiz.2
    injection heq with h3
    subst h3
    exact hc hcode

/-- C6: the fetch loop retries the current page (leaving the whole loop state
untouched) exactly on a rate-limit signal, the retry count is unbounded, a
transport failure aborts immediately, and every other non-success response
aborts with an error. -/
theorem rate_limit_retry_c6 :
    (∀ st r, fetchStep st r = .retrySame ↔ isRateLimit r) ∧
    (∀ st r rest, isRateLimit r → fetchRun st (r :: rest) = fetchRun st rest) ∧
    (∀ st r n rest, isRateLimit r →
        fetchRun st (List.replicate n r ++ rest) = fetchRun st rest) ∧
    (∀ st e, fetchStep st (.transportError e) = .fail e) ∧
    (∀ st status body parsed, status ≠ 200 →
        ¬ isRateLimit (.response status body parsed) →
        fetchStep st (.response status body parsed) = .fail ("API HTTP Error: " ++ body)) ∧
    (∀ st body res, res.code ≠ "0" → res.code ≠ "50011" →
        fetchStep st (.response 200 body (some res)) = .fail ("OKX Biz Error: " ++ res.msg)) ∧
    (∀ st body, fetchStep st (.response 200 body none) = .fail "invalid character in JSON") := by
  have hiff : ∀ st r, fetchStep st r = .retrySame ↔ isRateLimit r := by
    intro st r
    cases r with
    | transportError e => simp [fetchStep, isRateLimit]
    | response status body parsed =>
      by_cases h200 : status = 200
      · subst h200
        cases parsed with
        | none => simp [fetchStep, isRateLimit]
        | some res =>
          obtain ⟨code, msg2, data⟩ := res
          by_cases hc : code = "50011"
          · subst hc
            rw [fetchStep_biz _ _ _ _ _ (by decide), if_pos rfl]
            exact iff_of_true rfl (Or.inr (Or.inr ⟨rfl, _, rfl, rfl⟩))
          · refine iff_of_false ?_ (not_rateLimit_ok200 _ _ _ _ hc)
            by_cases h0 : code = "0"
            · subst h0
              cases data with
              | nil => rw [fetchStep_page_nil]; simp
              | cons x xs => rw [fetchStep_page_cons]; split <;> simp
            · rw [fetchStep_biz _ _ _ _ _ h0, if_neg hc]
              simp
      · rw [fetchStep_non200 _ _ _ _ h200]
        constructor
        · intro h
          by_cases hrl : (strContains body "50011" || status == 429) = true
          · rcases Bool.or_eq_true_iff.mp hrl with hb | hs
            · exact Or.inr (Or.inl ⟨h200, hb⟩)
            · exact Or.inl (by simpa using hs)
          · rw [if_neg hrl] at h
            simp at h
        · intro hr
          simp only [isRateLimit] at hr
          rcases hr with hs | hb | h2
          · subst hs
            rw [if_pos (by simp)]
          · rw [if_pos (by simp [hb.2])]
          · exact absurd h2.1 h200
  have hone : ∀ st r rest, isRateLimit r → fetchRun st (r :: rest) = fetchRun st rest := by
    intro st r rest h
    simp [fetchRun, (hiff st r).mpr h]
  refine ⟨hiff, hone, ?_, ?_, ?_, ?_, ?_⟩
  · intro st r n rest h
    induction n with
    | zero => simp
    | succ k ih => simpa [List.replicate_succ, hone st r _ h] using ih
  · intro st e
    simp [fetchStep]
  · intro st status body parsed h200 hnr
    rw [fetchStep_non200 _ _ _ _ h200]
    rw [if_neg ?hcond]
    case hcond =>
      intro hrl
      rcases Bool.or_eq_true_iff.mp hrl with hb | hs
      · exact hnr (Or.inr (Or.inl ⟨h200, hb⟩))
      · exact hnr (Or.inl (by simpa using hs))
  · intro st body res h0 hc
    obtain ⟨code, msg2, data⟩ := res
    rw [fetchStep_biz _ _ _ _ _ h0, if_neg hc]
  · intro st body
    rfl

/-- Witness for C6's theorem at a concrete input. -/
theorem rate_limit_retry_c6_witness :
    fetchRun { allBills := [], afterCursor := "", pageCount := 1 }
        [HttpResult.response 429 "too many requests" none] =
      fetchRun { allBills := [], afterCursor := "", pageCount := 1 } [] :=
  rate_limit_retry_c6.2.1 { allBills := [], afterCursor := "", pageCount := 1 }
    (HttpResult.response 429 "too many requests" none) [] (Or.inl rfl)

/-- C7: the pagination loop stops exactly on a successful page that is empty
or shorter than 100 events: an empty first page gives an empty result without
error, a short non-empty page ends the fetch with its events appended, and a
page of 100 or more events appends its events, advances the cursor to the last
event's identifier, and fetches again. -/
theorem pagination_c7 :
    (∀ body msg, fetchBills [.response 200 body (some ⟨"0", msg, []⟩)] = .ok []) ∧
    (∀ st body msg, fetchStep st (.response 200 body (some ⟨"0", msg, []⟩)) =
        .done st.allBills) ∧
    (∀ st body msg data (h : data ≠ []), data.length < 100 →
        fetchStep st (.response 200 body (some ⟨"0", msg, data⟩)) =
          .done (st.allBills ++ data)) ∧
    (∀ st body msg data (h : data ≠ []), 100 ≤ data.length →
        fetchStep st (.response 200 body (some ⟨"0", msg, data⟩)) =
          .nextPage { allBills := st.allBills ++ data
                      afterCursor := (data.getLast h).billId
                      pageCount := st.pageCount + 1 }) ∧
    (∀ st r bills, fetchStep st r = .done bills →
        ∃ body msg data, r = .response 200 body (some ⟨"0", msg, data⟩) ∧
          (data = [] ∨ data.length < 100)) := by
  refine ⟨?_, ?_, ?_, ?_, ?_⟩
  · intro body msg
    rfl
  · intro st body msg
    rfl
  · intro st body msg data h hlen
    cases data with
    | nil => exact absurd rfl h
    | cons x xs => rw [fetchStep_page_cons, if_pos hlen]
  · intro st body msg data h hlen
    cases data with
    | nil => exact absurd rfl h
    | cons x xs => rw [fetchStep_page_cons, if_neg (Nat.not_lt.mpr hlen)]
  · intro st r bills h
    cases r with
    | transportError e => exact FetchOutcome.noConfusion h
    | response status body parsed =>
      by_cases h200 : status = 200
      · subst h200
        cases parsed with
        | none => exact FetchOutcome.noConfusion h
        | some res =>
          obtain ⟨code, msg2, data⟩ := res
          by_cases h0 : code = "0"
          · subst h0
            cases data with
            | nil => exact ⟨body, msg2, [], rfl, Or.inl rfl⟩
            | cons x xs =>
              by_cases hlen : (x :: xs).length < 100
              · exact ⟨body, msg2, x :: xs, rfl, Or.inr hlen⟩
              · rw [fetchStep_page_cons, if_neg hlen] at h
                exact FetchOutcome.noConfusion h
          · rw [fetchStep_biz _ _ _ _ _ h0] at h
            by_cases hc : code = "50011"
            · rw [if_pos hc] at h
              exact FetchOutcome.noConfusion h
            · rw [if_neg hc] at h
              exact FetchOutcome.noConfusion h
      · rw [fetchStep_non200 _ _ _ _ h200] at h
        by_cases hrl : (strContains body "50011" || status == 429) = true
        · rw [if_pos hrl] at h
          exact FetchOutcome.noConfusion h
        · rw [if_neg hrl] at h
          exact FetchOutcome.noConfusion h

/-- Witness for C7's theorem at a concrete input. -/
theorem pagination_c7_witness :
    fetchStep { allBills := [], afterCursor := "", pageCount := 1 }
        (.response 200 "" (some { code := "0", msg := "", data := [c1Bill] })) =
      .done [c1Bill] :=
  pagination_c7.2.2.1 { allBills := [], afterCursor := "", pageCount := 1 } "" ""
    [c1Bill] (by decide) (by decide)



/-- Amount bookkeeping of one fold step: the group amount grows by the new
bill's amount, whatever the timestamp and note branches do. -/
theorem updateGroup_amount (t : Transaction) (b : Bill) :
    (updateGroup t b).amount = t.amount + billAmount b := by
  simp only [updateGroup]
  split <;> split <;> rfl

/-- Timestamp bookkeeping of one fold step: the group timestamp becomes the
maximum of the old timestamp and the new bill's timestamp. -/
theorem updateGroup_timestamp (t : Transaction) (b : Bill) :
    (updateGroup t b).timestamp = max t.timestamp (billTs b) := by
  simp only [updateGroup]
  split <;> split <;> simp_all <;> omega

/-- The fold never changes a group's kind. -/
theorem updateGroup_type (t : Transaction) (b : Bill) :
    (updateGroup t b).type = t.type := by
  simp only [updateGroup]
  split <;> split <;> rfl

/-- Folding a whole list of bills adds the sum of their amounts. -/
theorem foldl_updateGroup_amount (l : List Bill) :
    ∀ g : Transaction, (l.foldl updateGroup g).amount = g.amount + (l.map billAmount).sum := by
  induction l with
  | nil => simp
  | cons b rest ih =>
    intro g
    simp [ih, updateGroup_amount, add_assoc]

/-- Folding a whole list of bills takes the running maximum of timestamps. -/
theorem foldl_updateGroup_timestamp (l : List Bill) :
    ∀ g : Transaction,
      (l.foldl updateGroup g).timestamp = (l.map billTs).foldl max g.timestamp := by
  induction l with
  | nil => simp
  | cons b rest ih =>
    intro g
    simp [ih, updateGroup_timestamp]

/-- Folding a whole list of bills preserves the kind. -/
theorem foldl_updateGroup_type (l : List Bill) :
    ∀ g : Transaction, (l.foldl updateGroup g).type = g.type := by
  induction l with
  | nil => simp
  | cons b rest ih =>
    intro g
    simp [ih, updateGroup_type]

/-- A left fold of `max` bounds the start value and every list element. -/
theorem foldl_max_le (l : List ℤ) :
    ∀ a : ℤ, a ≤ l.foldl max a ∧ ∀ x ∈ l, x ≤ l.foldl max a := by
  induction l with
  | nil => simp
  | cons y t ih =>
    intro a
    constructor
    · exact le_trans (le_max_left a y) (ih (max a y)).1
    · intro x hx
      rcases List.mem_cons.mp hx with rfl | hx2
      · exact le_trans (le_max_right a x) (ih (max a x)).1
      · exact (ih (max a y)).2 x hx2

/-- A left fold of `max` returns the start value or some list element. -/
theorem foldl_max_mem (l : List ℤ) :
    ∀ a : ℤ, l.foldl max a = a ∨ l.foldl max a ∈ l := by
  induction l with
  | nil => exact fun a => Or.inl rfl
  | cons y t ih =>
    intro a
    rcases ih (max a y) with h | h
    · rcases max_choice a y with h2 | h2
      · exact Or.inl (by rw [List.foldl_cons, h, h2])
      · exact Or.inr (by rw [List.foldl_cons, h, h2]; exact List.mem_cons_self y t)
    · exact Or.inr (List.mem_cons_of_mem y h)

/-- When every bill carries the same non-empty order id, the aggregation loop
keeps exactly one group and folds every bill into it. -/
theorem foldl_aggStep_single (o : String) (ho : o ≠ "") :
    ∀ (l : List Bill) (g : Transaction), (∀ b ∈ l, b.ordId = o) →
      l.foldl aggStep { merged := [(o, g)], standalone := [] } =
        { merged := [(o, l.foldl updateGroup g)], standalone := [] } := by
  intro l
  induction l with
  | nil => exact fun g _ => rfl
  | cons b rest ih =>
    intro g hall
    have hb : b.ordId = o := hall b (List.mem_cons_self b rest)
    have hbne : b.ordId ≠ "" := by rw [hb]; exact ho
    simp only [List.foldl_cons, aggStep, if_pos hbne, insertOrUpdate]
    rw [if_pos hb.symm]
    exact ih (updateGroup g b) (fun x hx => hall x (List.mem_cons_of_mem b hx))

/-- C2: for a non-empty list of bills all sharing one non-empty order id the
aggregator emits exactly one transaction, of kind PnL, whose amount is the
exact sum of the bills' amounts and whose timestamp is the maximum of the
bills' timestamps. -/
theorem aggregator_fold_c2 (bills : List Bill) (o : String) (ho : o ≠ "")
    (hne : bills ≠ []) (hall : ∀ b ∈ bills, b.ordId = o) :
    ∃ t : Transaction,
      aggregateAndMapBills bills = [t] ∧
      t.type = TypePnL ∧
      t.amount = (bills.map billAmount).sum ∧
      t.timestamp ∈ bills.map billTs ∧
      (∀ b ∈ bills, billTs b ≤ t.timestamp) := by
  cases bills with
  | nil => exact absurd rfl hne
  | cons b rest =>
    have hb : b.ordId = o := hall b (List.mem_cons_self b rest)
    have hbne : b.ordId ≠ "" := by rw [hb]; exact ho
    refine ⟨rest.foldl updateGroup (newGroup b), ?_, ?_, ?_, ?_, ?_⟩
    · unfold aggregateAndMapBills
      simp only [List.foldl_cons, aggStep, if_pos hbne, insertOrUpdate]
      rw [hb]
      rw [foldl_aggStep_single o ho rest (newGroup b)
        (fun x hx => hall x (List.mem_cons_of_mem b hx))]
      rfl
    · rw [foldl_updateGroup_type]
      rfl
    · rw [foldl_updateGroup_amount]
      simp [newGroup]
    · rw [foldl_updateGroup_timestamp, List.map_cons]
      rcases foldl_max_mem (rest.map billTs) (newGroup b).timestamp with h | h
      · rw [h]
        exact List.mem_cons_self _ _
      · exact List.mem_cons_of_mem _ h
    · intro x hx
      rw [foldl_updateGroup_timestamp]
      rcases List.mem_cons.mp hx with rfl | hx2
      · exact (foldl_max_le (rest.map billTs) (newGroup x).timestamp).1
      · exact (foldl_max_le (rest.map billTs) (newGroup b).timestamp).2 (billTs x)
          (List.mem_map_of_mem billTs hx2)

/-- Witness for C2's theorem at a concrete input. -/
theorem aggregator_fold_c2_witness :
    ∃ t : Transaction,
      aggregateAndMapBills [c2BillA, c2BillB] = [t] ∧
      t.type = TypePnL ∧
      t.amount = ([c2BillA, c2BillB].map billAmount).sum ∧
      t.timestamp ∈ [c2BillA, c2BillB].map billTs ∧
      (∀ b ∈ [c2BillA, c2BillB], billTs b ≤ t.timestamp) :=
  aggregator_fold_c2 [c2BillA, c2BillB] "A" (by decide) (by decide) (by decide)

/-- The aggregation loop routes exactly the bills without an order id to the
standalone list, one transaction each, in input order. -/
theorem foldl_aggStep_standalone (bills : List Bill) :
    ∀ st : AggState,
      (bills.foldl aggStep st).standalone =
        st.standalone ++ (bills.filter (fun b => decide (b.ordId = ""))).map standaloneTx := by
  induction bills with
  | nil => simp
  | cons b rest ih =>
    intro st
    by_cases hb : b.ordId = ""
    · simp only [List.foldl_cons, aggStep, if_neg (not_not_intro hb)]
      rw [ih]
      simp [hb, List.filter_cons]
    · simp only [List.foldl_cons, aggStep, if_pos hb]
      rw [ih]
      simp [hb, List.filter_cons]

/-- C8: every bill with an empty order id becomes exactly one standalone
transaction (appended after the merged order groups, in input order), and its
kind comes solely from the raw type code: "1" is Deposit, "2" is Withdrawal,
and anything else — including funding-fee code "8" — is PnL. -/
theorem standalone_classification_c8 :
    (∀ bills : List Bill,
        aggregateAndMapBills bills =
          mergedTransactions bills ++
            (bills.filter (fun b => decide (b.ordId = ""))).map standaloneTx) ∧
    (∀ b : Bill, (standaloneTx b).type = determineType b.type) ∧
    determineType "1" = TypeDeposit ∧
    determineType "2" = TypeWithdrawal ∧
    determineType "8" = TypePnL ∧
    (∀ s : String, s ≠ "1" → s ≠ "2" → determineType s = TypePnL) := by
  refine ⟨?_, fun b => rfl, rfl, rfl, rfl, ?_⟩
  · intro bills
    simp only [aggregateAndMapBills, mergedTransactions]
    rw [foldl_aggStep_standalone]
    rfl
  · intro s h1 h2
    unfold determineType
    rw [if_neg h1, if_neg h2]

/-- Witness for C8's theorem at a concrete input. -/
theorem standalone_classification_c8_witness :
    determineType "7" = TypePnL :=
  standalone_classification_c8.2.2.2.2.2 "7" (by decide) (by decide)

/-- C5 (amended): every appended batch is sorted non-decreasingly by
timestamp, every transaction in it is strictly newer than the watermark, and
when the watermark is second-aligned each written (second-truncated) timestamp
is at least the watermark.  Equal timestamps may repeat, so the file is
non-decreasing rather than strictly increasing. -/
theorem batch_order_c5 (T : ℤ) (txs : List Transaction) :
    List.Sorted txLe (sortTxs (filterNew T txs)) ∧
    (∀ tx ∈ sortTxs (filterNew T txs), T < tx.timestamp) ∧
    (∀ tx ∈ sortTxs (filterNew T txs), 1000 ∣ T → T ≤ truncSec tx.timestamp) := by
  have hmemfilter : ∀ tx ∈ sortTxs (filterNew T txs), T < tx.timestamp := by
    intro tx hm
    have hm2 : tx ∈ filterNew T txs := (List.perm_insertionSort txLe _).mem_iff.mp hm
    exact (of_decide_eq_true (List.mem_filter.mp hm2).2).2
  refine ⟨List.sorted_insertionSort txLe _, hmemfilter, ?_⟩
  intro tx hm hdvd
  obtain ⟨k, rfl⟩ := hdvd
  have hlt := hmemfilter tx hm
  unfold truncSec
  rw [Int.fdiv_eq_ediv _ (by norm_num)]
  omega

set_option maxRecDepth 4000 in
/-- Witness for C5's amended theorem at a concrete input. -/
theorem batch_order_c5_witness :
    (0 : ℤ) < c5wTx.timestamp ∧ (0 : ℤ) ≤ truncSec c5wTx.timestamp :=
  ⟨(batch_order_c5 0 [c5wTx]).2.1 c5wTx (by with_unfolding_all decide),
   (batch_order_c5 0 [c5wTx]).2.2 c5wTx (by with_unfolding_all decide) ⟨0, rfl⟩⟩

end P911
